import Mathlib

/-!
Verification of the ripple / cursor / scroll logic of `src/app.jsx`
(BNDRBOTS/LightShow).

The page keeps one mutable collection of ripple records, created by
`handleWaterClick` and removed by per-ripple `setTimeout` callbacks; a
cursor tracker throttled to one `requestAnimationFrame` per batch of
move events; a guarded touch handler; and a linear scroll-progress to
translation mapping.  Each piece is embedded below as executable Lean
definitions and the spec's claims are settled against them.
-/

namespace LightShow

/-- A ripple record as stored in the `ripples` state array
(src/app.jsx line 6): an identifier and two pointer coordinates. -/
structure Ripple where
  id : Nat
  x : Int
  y : Int
  deriving DecidableEq

/-- A pending `setTimeout` scheduled by `handleWaterClick`
(src/app.jsx lines 50-52): at clock value `fireAt` it removes every
ripple whose identifier equals `rid`. -/
structure Timer where
  fireAt : Nat
  rid : Nat
  deriving DecidableEq

/-- The state of the single-threaded event loop: the millisecond clock
(what `Date.now()` returns), the `ripples` collection, and the queue of
pending timeouts in the order they were scheduled. -/
structure LoopState where
  now : Nat
  ripples : List Ripple
  timers : List Timer
  deriving DecidableEq

/-- `handleWaterClick` (src/app.jsx lines 46-53): builds
`newRipple = { id: Date.now(), x: e.clientX, y: e.clientY }`, appends it
via `setRipples((prev) => [...prev, newRipple])`, and schedules one
`setTimeout(..., 2000)` removing every ripple whose id equals
`newRipple.id`. -/
def handleWaterClick (x y : Int) (s : LoopState) : LoopState :=
  { now := s.now
    ripples := s.ripples ++ [{ id := s.now, x := x, y := y }]
    timers := s.timers ++ [{ fireAt := s.now + 2000, rid := s.now }] }

/-- The body of one timeout callback (src/app.jsx line 51):
`setRipples((prev) => prev.filter((r) => r.id !== newRipple.id))`. -/
def fireTimer (t : Timer) (rs : List Ripple) : List Ripple :=
  rs.filter (fun r => r.id != t.rid)

/-- One millisecond of clock advance: the clock moves to `now + 1` and
every timeout due by then fires, in the order it was scheduled.  This is
the idealised event loop in which `setTimeout(f, d)` runs `f` exactly
`d` milliseconds after scheduling. -/
def advance1 (s : LoopState) : LoopState :=
  { now := s.now + 1
    ripples := (s.timers.filter (fun t => t.fireAt ≤ s.now + 1)).foldl
      (fun rs t => fireTimer t rs) s.ripples
    timers := s.timers.filter (fun t => s.now + 1 < t.fireAt) }

/-- One event-loop transition: either a click event is handled, or the
clock advances one millisecond (firing the timeouts that come due). -/
inductive Step : LoopState → LoopState → Prop
  | click (x y : Int) (s : LoopState) : Step s (handleWaterClick x y s)
  | tick (s : LoopState) : Step s (advance1 s)

/-- Reachable event-loop states: any start time with no ripples and no
pending timeouts, closed under `Step`. -/
inductive Reach : LoopState → Prop
  | init (t0 : Nat) : Reach { now := t0, ripples := [], timers := [] }
  | step {s s' : LoopState} : Reach s → Step s s' → Reach s'

/-- Membership after folding a list of timeout callbacks over the ripple
collection: a record survives iff it was there and matches none of the
fired identifiers. -/
theorem mem_foldl_fireTimer (ts : List Timer) (rs : List Ripple) (r : Ripple) :
    r ∈ ts.foldl (fun l t => fireTimer t l) rs ↔
      r ∈ rs ∧ ∀ t ∈ ts, r.id ≠ t.rid := by
  induction ts generalizing rs with
  | nil => simp
  | cons t ts ih =>
    rw [List.foldl_cons, ih]
    simp only [fireTimer, List.mem_filter, bne_iff_ne, ne_eq, List.mem_cons,
      forall_eq_or_imp]
    tauto

/-- Folding timeout callbacks only ever removes records: the result is a
sublist of the input collection. -/
theorem foldl_fireTimer_sublist (ts : List Timer) (rs : List Ripple) :
    (ts.foldl (fun l t => fireTimer t l) rs).Sublist rs := by
  induction ts generalizing rs with
  | nil => exact List.Sublist.refl rs
  | cons t ts ih => exact (ih (fireTimer t rs)).trans (List.filter_sublist rs)

/-- Loop invariant, part 1: every pending timeout fires exactly 2000 ms
after the click that scheduled it (so `fireAt = rid + 2000`) and is
still in the future. -/
def TimerOk (s : LoopState) : Prop :=
  ∀ t ∈ s.timers, t.fireAt = t.rid + 2000 ∧ s.now < t.fireAt

/-- Loop invariant, part 2: every ripple in the collection still has a
pending timeout targeting its identifier. -/
def RippleCovered (s : LoopState) : Prop :=
  ∀ r ∈ s.ripples, ∃ t ∈ s.timers, t.rid = r.id

/-- The full loop invariant. -/
def Inv (s : LoopState) : Prop := TimerOk s ∧ RippleCovered s

theorem inv_init (t0 : Nat) : Inv { now := t0, ripples := [], timers := [] } := by
  constructor <;> intro x hx <;> simp at hx

theorem inv_click (x y : Int) (s : LoopState) (h : Inv s) :
    Inv (handleWaterClick x y s) := by
  obtain ⟨hT, hR⟩ := h
  constructor
  · intro t ht
    simp only [handleWaterClick, List.mem_append, List.mem_singleton] at ht
    rcases ht with ht | ht
    · exact ⟨(hT t ht).1, (hT t ht).2⟩
    · subst ht
      exact ⟨rfl, by simp only [handleWaterClick]; omega⟩
  · intro r hr
    simp only [handleWaterClick, List.mem_append, List.mem_singleton] at hr
    rcases hr with hr | hr
    · obtain ⟨t, ht, hrid⟩ := hR r hr
      exact ⟨t, by simp [handleWaterClick, ht], hrid⟩
    · subst hr
      exact ⟨{ fireAt := s.now + 2000, rid := s.now },
        by simp [handleWaterClick], rfl⟩

theorem inv_tick (s : LoopState) (h : Inv s) : Inv (advance1 s) := by
  obtain ⟨hT, hR⟩ := h
  constructor
  · intro t ht
    simp only [advance1, List.mem_filter, decide_eq_true_eq] at ht
    exact ⟨(hT t ht.1).1, ht.2⟩
  · intro r hr
    simp only [advance1] at hr ⊢
    rw [mem_foldl_fireTimer] at hr
    obtain ⟨hr, hnot⟩ := hr
    obtain ⟨t, ht, hrid⟩ := hR r hr
    refine ⟨t, ?_, hrid⟩
    simp only [List.mem_filter, decide_eq_true_eq]
    refine ⟨ht, ?_⟩
    by_contra hle
    push_neg at hle
    exact hnot t (by simp only [List.mem_filter, decide_eq_true_eq]; exact ⟨ht, hle⟩)
      hrid.symm

theorem inv_step {s s' : LoopState} (h : Inv s) (hs : Step s s') : Inv s' := by
  cases hs with
  | click x y s => exact inv_click x y s h
  | tick s => exact inv_tick s h

theorem reach_inv {s : LoopState} (h : Reach s) : Inv s := by
  induction h with
  | init t0 => exact inv_init t0
  | step _ hs ih => exact inv_step ih hs

/-- In every reachable state, each ripple was created (its identifier
stamped by `Date.now()`) less than 2000 ms before the current clock. -/
theorem reach_ripple_young {s : LoopState} (h : Reach s) :
    ∀ r ∈ s.ripples, s.now < r.id + 2000 := by
  intro r hr
  obtain ⟨hT, hR⟩ := reach_inv h
  obtain ⟨t, ht, hrid⟩ := hR r hr
  obtain ⟨hfa, hlt⟩ := hT t ht
  omega

/-- The state of the throttled cursor tracker (src/app.jsx lines 9-43):
the `ticking` flag, the coordinate pairs captured by pending
`requestAnimationFrame` callbacks (at most one in practice), and the
history of `--cursor-x`/`--cursor-y` style-variable write pairs. -/
structure CursorState where
  ticking : Bool
  queued : List (Int × Int)
  writes : List (Int × Int)
  deriving DecidableEq

/-- `updateCursor` (src/app.jsx lines 12-21): when `ticking` is unset,
capture `(x, y)` in a `requestAnimationFrame` callback and set
`ticking`; when it is set, do nothing. -/
def updateCursor (x y : Int) (s : CursorState) : CursorState :=
  if s.ticking then s
  else { ticking := true, queued := s.queued ++ [(x, y)], writes := s.writes }

/-- One animation frame: every pending callback runs, writing its
captured pair to the style variables and clearing `ticking`. -/
def frame (s : CursorState) : CursorState :=
  { ticking := if s.queued.isEmpty then s.ticking else false
    queued := []
    writes := s.writes ++ s.queued }

/-- A single entry of a `TouchEvent`'s `touches` list. -/
structure Touch where
  clientX : Int
  clientY : Int
  deriving DecidableEq

/-- `handleMouseMove` (src/app.jsx line 23): forwards the pointer
coordinates to `updateCursor`. -/
def handleMouseMove (cx cy : Int) (s : CursorState) : CursorState :=
  updateCursor cx cy s

/-- `handleTouchMove` (src/app.jsx lines 24-28): only when
`e.touches.length > 0` does it read `e.touches[0]` and forward its
coordinates.  The `Option` result models a thrown exception: reading
index 0 of an empty touch list would yield `none`, but the length guard
makes that branch unreachable. -/
def handleTouchMove (touches : List Touch) (s : CursorState) : Option CursorState :=
  if 0 < touches.length then
    match touches.head? with
    | some t => some (updateCursor t.clientX t.clientY s)
    | none => none
  else some s

/-- Throttle invariant: a `requestAnimationFrame` callback is pending
exactly when `ticking` is set. -/
def CInv (s : CursorState) : Prop :=
  s.queued.length = (if s.ticking then 1 else 0)

theorem updateCursor_cinv (x y : Int) (s : CursorState) (h : CInv s) :
    CInv (updateCursor x y s) ∧ (updateCursor x y s).writes = s.writes := by
  unfold CInv at h
  by_cases ht : s.ticking
  · constructor
    · simpa [updateCursor, ht, CInv] using h
    · simp [updateCursor, ht]
  · simp only [ht, if_false] at h
    constructor
    · simp [updateCursor, ht, CInv, h]
    · simp [updateCursor, ht]

theorem foldl_updateCursor_cinv (evs : List (Int × Int)) (s : CursorState)
    (h : CInv s) :
    CInv (evs.foldl (fun st e => updateCursor e.1 e.2 st) s) ∧
      (evs.foldl (fun st e => updateCursor e.1 e.2 st) s).writes = s.writes := by
  induction evs generalizing s with
  | nil => exact ⟨h, rfl⟩
  | cons e evs ih =>
    obtain ⟨h1, h2⟩ := updateCursor_cinv e.1 e.2 s h
    obtain ⟨h3, h4⟩ := ih _ h1
    exact ⟨h3, by rw [List.foldl_cons, h4, h2]⟩

/-- While `ticking` is set, further move events are ignored entirely. -/
theorem foldl_updateCursor_ticking (evs : List (Int × Int)) (s : CursorState)
    (h : s.ticking = true) :
    evs.foldl (fun st e => updateCursor e.1 e.2 st) s = s := by
  induction evs with
  | nil => rfl
  | cons e evs ih => rw [List.foldl_cons, updateCursor, if_pos h]; exact ih

/-- Scroll model (src/app.jsx lines 55-70).  `useTransform` maps an
input range linearly onto an output range. -/
def transformRange (i1 i2 o1 o2 p : ℚ) : ℚ :=
  o1 + (p - i1) / (i2 - i1) * (o2 - o1)

/-- `yTranslate` (src/app.jsx line 70): the smoothed scroll progress in
`[0, 1]` mapped onto `["0%", "-85.714%"]`, here as a rational
percentage. -/
def yTranslate (p : ℚ) : ℚ :=
  transformRange 0 1 0 (-(85714 / 1000)) p

/-- Height of the `content-scroll-layer` div in viewport-height units
(src/app.jsx line 101: `h-[700vh]`). -/
def contentScrollLayerHeightVh : ℚ := 700

/-! Claim theorems. -/

/-- Claim C1: every click event handled by `handleWaterClick` appends
exactly one ripple record — carrying an identifier and the event's two
coordinates — to the ripples collection, and no existing record is
altered by the append: the old collection is an unmodified prefix of
the new one. -/
theorem claim_c1_click_appends_exactly_one (x y : Int) (s : LoopState) :
    (handleWaterClick x y s).ripples
      = s.ripples ++ [{ id := s.now, x := x, y := y }] := rfl

/-- Claim C2: every ripple self-removes after the fixed two-second
delay: in a reachable state whose clock reads `c + 2000` — exactly two
seconds after a creation at clock `c`, whose record is stamped
`id = c` — no record with identifier `c` remains. -/
theorem claim_c2_ripple_gone_after_2000 {s : LoopState} (h : Reach s)
    (c : Nat) (hc : s.now = c + 2000) : ¬ ∃ r ∈ s.ripples, r.id = c := by
  rintro ⟨r, hr, hid⟩
  have := reach_ripple_young h r hr
  omega

theorem claim_c2_witness :
    ¬ ∃ r ∈ ({ now := 2000, ripples := [], timers := [] } : LoopState).ripples,
      r.id = 0 :=
  claim_c2_ripple_gone_after_2000 (Reach.init 2000) 0 rfl

/-- Claim C3: at every reachable state of the event loop (any
interleaving of clicks and expired timers), the ripples collection
contains only records created less than two seconds ago: each record's
creation stamp `id` satisfies `now < id + 2000`. -/
theorem claim_c3_only_young_ripples {s : LoopState} (h : Reach s) :
    ∀ r ∈ s.ripples, s.now < r.id + 2000 :=
  reach_ripple_young h

theorem claim_c3_witness : (7 : Nat) < 7 + 2000 :=
  claim_c3_only_young_ripples
    (Reach.step (Reach.init 7)
      (Step.click 3 4 { now := 7, ripples := [], timers := [] }))
    { id := 7, x := 3, y := 4 } (by simp [handleWaterClick])

/-- Folding timeout callbacks equals one filter that keeps exactly the
records matching none of the fired identifiers. -/
theorem foldl_fireTimer_eq_filter (ts : List Timer) (rs : List Ripple) :
    ts.foldl (fun l t => fireTimer t l) rs
      = rs.filter (fun r => ts.all (fun t => r.id != t.rid)) := by
  induction ts generalizing rs with
  | nil => simp
  | cons t ts ih =>
    rw [List.foldl_cons]
    show List.foldl (fun l t => fireTimer t l) (fireTimer t rs) ts = _
    rw [ih, fireTimer, List.filter_filter]
    congr 1
    funext r
    simp [List.all_cons, Bool.and_comm]

/-- Matching a ripple identifier against the identifiers of a list of
timers is the same whether phrased over the timers or over the list of
their target identifiers. -/
theorem all_ne_map_rid (ds : List Timer) (n : Nat) :
    (ds.map Timer.rid).all (fun i => n != i) = ds.all (fun t => n != t.rid) := by
  induction ds with
  | nil => rfl
  | cons d ds ih => simp only [List.map_cons, List.all_cons, ih]

/-- Claim C4: no ripple record is ever mutated after creation: every
event-loop step either appends one new record to the collection or
removes records by identifier match, keeping each surviving record's
`id`, `x` and `y` fields identical. -/
theorem claim_c4_records_never_mutated {s s' : LoopState} (h : Step s s') :
    (∃ r, s'.ripples = s.ripples ++ [r]) ∨
      ∃ ids : List Nat,
        s'.ripples = s.ripples.filter (fun r => ids.all (fun i => r.id != i)) := by
  cases h with
  | click x y s => exact Or.inl ⟨_, rfl⟩
  | tick s =>
    refine Or.inr
      ⟨(s.timers.filter (fun t => t.fireAt ≤ s.now + 1)).map Timer.rid, ?_⟩
    show (s.timers.filter _).foldl (fun rs t => fireTimer t rs) s.ripples = _
    rw [foldl_fireTimer_eq_filter]
    congr 1
    funext r
    rw [all_ne_map_rid]

theorem claim_c4_witness :
    (∃ r, (handleWaterClick 1 2 { now := 0, ripples := [], timers := [] }).ripples
        = ({ now := 0, ripples := [], timers := [] } : LoopState).ripples ++ [r]) ∨
      ∃ ids : List Nat,
        (handleWaterClick 1 2 { now := 0, ripples := [], timers := [] }).ripples
          = ({ now := 0, ripples := [], timers := [] } : LoopState).ripples.filter
              (fun r => ids.all (fun i => r.id != i)) :=
  claim_c4_records_never_mutated
    (Step.click 1 2 { now := 0, ripples := [], timers := [] })

/-- Claim C5: cursor tracking is throttled to at most one style-variable
update per animation frame: from any state satisfying the throttle
invariant, an arbitrary burst of move events leaves at most one pending
`requestAnimationFrame` callback, and the next frame performs at most
one additional pair of `--cursor-x`/`--cursor-y` writes. -/
theorem claim_c5_throttled_one_update_per_frame (s : CursorState) (h : CInv s)
    (evs : List (Int × Int)) :
    (evs.foldl (fun st e => updateCursor e.1 e.2 st) s).queued.length ≤ 1 ∧
      (frame (evs.foldl (fun st e => updateCursor e.1 e.2 st) s)).writes.length
        ≤ s.writes.length + 1 := by
  obtain ⟨h1, h2⟩ := foldl_updateCursor_cinv evs s h
  unfold CInv at h1
  constructor
  · rw [h1]
    split <;> omega
  · simp only [frame, List.length_append, h2, h1]
    split <;> omega

theorem claim_c5_witness :
    (([((1 : Int), (2 : Int)), (3, 4)]).foldl (fun st e => updateCursor e.1 e.2 st)
        { ticking := false, queued := [], writes := [] }).queued.length ≤ 1 ∧
      (frame (([((1 : Int), (2 : Int)), (3, 4)]).foldl
          (fun st e => updateCursor e.1 e.2 st)
          { ticking := false, queued := [], writes := [] })).writes.length
        ≤ ({ ticking := false, queued := [], writes := [] } : CursorState).writes.length
            + 1 :=
  claim_c5_throttled_one_update_per_frame
    { ticking := false, queued := [], writes := [] } rfl [(1, 2), (3, 4)]

/-- Claim C6: each ripple has exactly one associated timer: a click
appends exactly one timeout — targeting the identifier of the very
ripple it created — and no step ever cancels a pending timeout: a
timeout leaves the queue only once the clock has reached its firing
time. -/
theorem claim_c6_one_timer_per_ripple_no_cancel :
    (∀ (x y : Int) (s : LoopState),
        (handleWaterClick x y s).timers
            = s.timers ++ [{ fireAt := s.now + 2000, rid := s.now }] ∧
          (handleWaterClick x y s).ripples
            = s.ripples ++ [{ id := s.now, x := x, y := y }]) ∧
      ∀ s s' : LoopState, Step s s' → ∀ t ∈ s.timers, t ∉ s'.timers →
        t.fireAt ≤ s'.now := by
  constructor
  · intro x y s
    exact ⟨rfl, rfl⟩
  · intro s s' hstep t ht hnot
    cases hstep with
    | click x y s =>
      exact absurd (by simp [handleWaterClick, ht] :
        t ∈ (handleWaterClick x y s).timers) hnot
    | tick s =>
      by_contra hgt
      push_neg at hgt
      exact hnot
        (by simp only [advance1, List.mem_filter, decide_eq_true_eq]
            exact ⟨ht, hgt⟩)

theorem claim_c6_witness :
    ((handleWaterClick 1 2 { now := 0, ripples := [], timers := [] }).timers
        = [] ++ [{ fireAt := 2000, rid := 0 }] ∧
      (handleWaterClick 1 2 { now := 0, ripples := [], timers := [] }).ripples
        = [] ++ [{ id := 0, x := 1, y := 2 }]) ∧
      ({ fireAt := 2000, rid := 0 } : Timer).fireAt
        ≤ (advance1 { now := 1999, ripples := [], timers := [{ fireAt := 2000, rid := 0 }] }).now := by
  refine ⟨claim_c6_one_timer_per_ripple_no_cancel.1 1 2 _, ?_⟩
  exact claim_c6_one_timer_per_ripple_no_cancel.2 _ _
    (Step.tick { now := 1999, ripples := [], timers := [{ fireAt := 2000, rid := 0 }] })
    { fireAt := 2000, rid := 0 } (by decide) (by decide)

/-- Claim C7: no operation can fail: `handleTouchMove` succeeds on every
input — the length guard makes the `touches[0]` read safe, and on an
event whose touch list is empty it performs no update at all — while
`handleMouseMove` (like `handleWaterClick`) is a total function of its
inputs. -/
theorem claim_c7_handlers_total :
    (∀ (touches : List Touch) (s : CursorState),
        (handleTouchMove touches s).isSome = true) ∧
      (∀ s : CursorState, handleTouchMove [] s = some s) ∧
      (∀ (cx cy : Int) (s : CursorState),
        handleMouseMove cx cy s = updateCursor cx cy s) := by
  refine ⟨?_, fun s => rfl, fun cx cy s => rfl⟩
  intro touches s
  cases touches with
  | nil => rfl
  | cons t ts => simp [handleTouchMove]

/-- Claim C8: ripple identifiers are `Date.now()` stamps and are not
guaranteed unique: two clicks handled at the same millisecond yield two
records carrying the same identifier, both scheduled timeouts target
that one identifier, and the filter of the first click's timeout alone
already removes both records — so the second ripple is gone before its
own timeout callback runs. -/
theorem claim_c8_duplicate_ids_first_filter_removes_both
    (s0 : LoopState) (x1 y1 x2 y2 : Int) :
    ((⟨s0.now, x1, y1⟩ : Ripple)
        ∈ (handleWaterClick x2 y2 (handleWaterClick x1 y1 s0)).ripples ∧
      (⟨s0.now, x2, y2⟩ : Ripple)
        ∈ (handleWaterClick x2 y2 (handleWaterClick x1 y1 s0)).ripples) ∧
    (handleWaterClick x2 y2 (handleWaterClick x1 y1 s0)).timers
        = s0.timers ++ [{ fireAt := s0.now + 2000, rid := s0.now },
            { fireAt := s0.now + 2000, rid := s0.now }] ∧
    fireTimer { fireAt := s0.now + 2000, rid := s0.now }
        (handleWaterClick x2 y2 (handleWaterClick x1 y1 s0)).ripples
      = fireTimer { fireAt := s0.now + 2000, rid := s0.now } s0.ripples := by
  refine ⟨⟨?_, ?_⟩, ?_, ?_⟩
  · simp [handleWaterClick]
  · simp [handleWaterClick]
  · simp [handleWaterClick]
  · simp [handleWaterClick, fireTimer, List.filter_append]

/-- Claim C9: the throttle drops later coordinates rather than
coalescing to the latest: from an idle tracker, a burst of move events
starting with `(ex, ey)` queues exactly that first pair — every later
event in the burst is discarded — and the next frame writes the first
pair, not the most recent one. -/
theorem claim_c9_first_event_wins (s : CursorState) (hTick : s.ticking = false)
    (hQ : s.queued = []) (ex ey : Int) (evs : List (Int × Int)) :
    (evs.foldl (fun st x => updateCursor x.1 x.2 st)
        (updateCursor ex ey s)).queued = [(ex, ey)] ∧
      (frame (((ex, ey) :: evs).foldl (fun st x => updateCursor x.1 x.2 st) s)).writes
        = s.writes ++ [(ex, ey)] := by
  have hu : updateCursor ex ey s
      = { ticking := true, queued := s.queued ++ [(ex, ey)], writes := s.writes } := by
    simp [updateCursor, hTick]
  have hfold := foldl_updateCursor_ticking evs
    { ticking := true, queued := s.queued ++ [(ex, ey)], writes := s.writes } rfl
  constructor
  · rw [hu, hfold, hQ]
    rfl
  · rw [List.foldl_cons]
    show (frame (evs.foldl _ (updateCursor ex ey s))).writes = _
    rw [hu, hfold]
    simp [frame, hQ]

theorem claim_c9_witness :
    (([((3 : Int), (4 : Int)), (5, 6)]).foldl (fun st x => updateCursor x.1 x.2 st)
        (updateCursor 1 2 { ticking := false, queued := [], writes := [] })).queued
      = [((1 : Int), (2 : Int))] ∧
      (frame ((((1 : Int), (2 : Int)) :: [((3 : Int), (4 : Int)), (5, 6)]).foldl
          (fun st x => updateCursor x.1 x.2 st)
          { ticking := false, queued := [], writes := [] })).writes
        = ({ ticking := false, queued := [], writes := [] } : CursorState).writes
            ++ [((1 : Int), (2 : Int))] :=
  claim_c9_first_event_wins
    { ticking := false, queued := [], writes := [] } rfl rfl 1 2 [(3, 4), (5, 6)]

/-- Claim C10: `yTranslate` sends smoothed progress 0 to 0% and
progress 1 to -85.714% of the 700vh content layer — the exact fraction
-600/700 of the layer (that is, -600/7 percent) rounded to the nearest
thousandth of a percent — so at full scroll the offset differs from the
exact fraction, by at most half a thousandth. -/
theorem claim_c10_scroll_mapping_rounded :
    yTranslate 0 = 0 ∧
      yTranslate 1 = -(85714 / 1000) ∧
      yTranslate 1 ≠ -((600 / contentScrollLayerHeightVh) * 100) ∧
      |yTranslate 1 - -((600 / contentScrollLayerHeightVh) * 100)| ≤ 1 / 2000 := by
  refine ⟨?_, ?_, ?_, ?_⟩ <;>
    norm_num [yTranslate, transformRange, contentScrollLayerHeightVh, abs_le]

end LightShow
